import Mathlib

/-!
Verification of the slwhttp static file server: a shallow embedding of
`src/src/SandboxPath.cpp` and `src/src/main.cpp` (the final revision, the one
with percent-decoding) together with proofs about the embedded definitions.

Byte strings (`std::string`) are modelled as `List Char`; every character that
occurs in the program is ASCII, so `Char` is a faithful byte model here.
External collaborators that live under `ext/` (the `File` and `Utility`
helpers) are modelled as oracle parameters or, where a concrete behaviour is
required, as definitions whose doc comments say what the spec prescribes.
-/

/-- Byte strings of the program (`std::string`). -/
abbrev Str := List Char

/-- Whitespace test used by trimming (space, tab, line feed, carriage return). -/
def isWs (c : Char) : Bool :=
  c = ' ' || c = '\t' || c = '\n' || c = '\r'

/-- Modelled from the spec: `Utility::trim` (the `ext/Utility` helper is not
under `src/`); the spec says accumulated text is "trimmed of leading/trailing
whitespace". -/
def trim (s : Str) : Str :=
  ((s.dropWhile isWs).reverse.dropWhile isWs).reverse

/-- Split a byte string at every occurrence of `sep`: the first component is
the token before the first separator, the second the remaining tokens. -/
def splitChar (sep : Char) : Str → Str × List Str
  | [] => ([], [])
  | c :: rest =>
    let p := splitChar sep rest
    if c = sep then ([], p.1 :: p.2) else (c :: p.1, p.2)

/-- Modelled from the spec: `Utility::explode` (the `ext/Utility` helper is not
under `src/`); the spec speaks of "whitespace-delimited" tokens and of an empty
accumulated text yielding "an empty result", so empty tokens are dropped and
the empty string explodes to the empty list. -/
def explode (sep : Char) (s : Str) : List Str :=
  let p := splitChar sep s
  (p.1 :: p.2).filter (fun t => !t.isEmpty)

/-- Modelled from the spec: `Utility::strtolower` (the `ext/Utility` helper is
not under `src/`); ASCII lowercasing, used for the case-insensitive `GET`
comparison. -/
def lowerChar (c : Char) : Char :=
  if 'A' ≤ c ∧ c ≤ 'Z' then Char.ofNat (c.toNat + 32) else c

/-- Lowercase a whole byte string. -/
def lowerStr (s : Str) : Str := s.map lowerChar

/-- Hexadecimal digit test of the `urldecode` pattern `%([0-9A-F]{2})` with
`icase`, so both cases are accepted (`main.cpp:594`). -/
def isHexDigit (c : Char) : Bool :=
  ('0' ≤ c ∧ c ≤ '9') || ('A' ≤ c ∧ c ≤ 'F') || ('a' ≤ c ∧ c ≤ 'f')

/-- Value of a hexadecimal digit as `strtol(hex, nullptr, 16)` computes it
(`main.cpp:602`). -/
def hexVal (c : Char) : Nat :=
  if '0' ≤ c ∧ c ≤ '9' then c.toNat - '0'.toNat
  else if 'A' ≤ c ∧ c ≤ 'F' then c.toNat - 'A'.toNat + 10
  else if 'a' ≤ c ∧ c ≤ 'f' then c.toNat - 'a'.toNat + 10
  else 0

/-- One round of the `urldecode` loop body (`main.cpp:598-605`): find the
leftmost occurrence of a percent character followed by two hexadecimal digits
and replace those three characters by the decoded byte; `none` when
`regex_search` finds no match. -/
def decodeStep : Str → Option Str
  | '%' :: a :: b :: rest =>
    if isHexDigit a && isHexDigit b then
      some (Char.ofNat (16 * hexVal a + hexVal b) :: rest)
    else
      (decodeStep (a :: b :: rest)).map (fun t => '%' :: t)
  | c :: rest => (decodeStep rest).map (fun t => c :: t)
  | [] => none

/-- Fuelled driver of the `urldecode` while loop (`main.cpp:598`): repeat
`decodeStep` until no match remains.  Each step removes two characters, so
`s.length` rounds of fuel always suffice. -/
def urldecodeAux : Nat → Str → Str
  | 0, s => s
  | fuel + 1, s =>
    match decodeStep s with
    | none => s
    | some t => urldecodeAux fuel t

/-- `urldecode` (`main.cpp:588-608`): the `while(regex_search ...)` loop
restarts the search from the beginning of the (already partially decoded)
string after every replacement. -/
def urldecode (s : Str) : Str := urldecodeAux s.length s

/-- Single-pass percent-decoding, stated from the spec's words: "each `%`
followed by two hexadecimal digits is replaced by the corresponding byte;
malformed escapes are left undecoded".  Scanning continues after each decoded
escape, so decoded output is never re-examined.  This is the definition the
code is compared against, not the code's own loop. -/
def decodeOncePass : Str → Str
  | '%' :: a :: b :: rest =>
    if isHexDigit a && isHexDigit b then
      Char.ofNat (16 * hexVal a + hexVal b) :: decodeOncePass rest
    else
      '%' :: decodeOncePass (a :: b :: rest)
  | c :: rest => c :: decodeOncePass rest
  | [] => []

/-- `SandboxPath::checkJail` (`SandboxPath.cpp:76-87`): the canonical path is
accepted exactly when it is longer than `jail.length() + 1` and its first
`jail.length() + 1` characters are `jail + "/"`. -/
def checkJail (jail path : Str) : Bool :=
  if jail.length + 1 < path.length then
    decide (path.take (jail.length + 1) = jail ++ ['/'])
  else false

/-- The spec's notion of a proper descendant of the sandbox root: `root ++ "/"`
is a prefix of the canonical path and the canonical path is strictly longer
than that prefix. -/
def properDescendant (root p : Str) : Prop :=
  (root ++ ['/']) <+: p ∧ (root ++ ['/']).length < p.length

/-- The `SandboxPath` constructor (`SandboxPath.cpp:26-37`) as a fallible
resolution function: throwing is `none`.  `realPath` is the external
`File::realPath` collaborator; a canonicalization failure is modelled as the
empty canonical path, which `checkJail` rejects either way. -/
def resolve (jail : Str) (realPath : Str → Option Str) (path : Str) :
    Option Str :=
  if jail.length = 0 then none
  else if checkJail jail ((realPath path).getD []) then
    some ((realPath path).getD [])
  else none

instance (root p : Str) : Decidable (properDescendant root p) :=
  inferInstanceAs
    (Decidable ((root ++ ['/']) <+: p ∧ (root ++ ['/']).length < p.length))

/-- `SandboxPath::setJail` (`SandboxPath.cpp:61-65`) as a state transition on
the stored static jail: the pair is the new jail value and the returned
boolean. -/
def setJail (realPath : Str → Option Str) (jail path : Str) : Str × Bool :=
  let j := if jail.length = 0 then (realPath path).getD [] else jail
  (j, decide (0 < j.length))

/-- `SandboxPath::get` (`SandboxPath.cpp:46-50`): re-check at the moment of
use that the canonical path is a readable regular file; throwing is `none`.
The two predicates are supplied by the filesystem oracle. -/
def sandboxGet (isFile readable : Str → Bool) (rpath : Str) : Option Str :=
  if isFile rpath && readable rpath then some rpath else none

/-- Filesystem / syscall oracle for one request.  `realPath`, `isFile` and
`readable` are the external `File` collaborators (the spec's
`resolveAbsolutePath`, `isRegularFile`, `isReadable`; `isFile` is false for a
path that does not exist).  `openOk`, `sizeOf`, `seekBackOk` and `content`
describe `open`, `lseek(...,SEEK_END)` (`none` for a negative return),
`lseek(...,SEEK_SET)` and the file bytes in `dump_file`. -/
structure Fs where
  realPath : Str → Option Str
  isFile : Str → Bool
  readable : Str → Bool
  openOk : Str → Bool
  sizeOf : Str → Option Nat
  seekBackOk : Str → Bool
  content : Str → Str

/-- The fixed denial body passed to `access_denied` (`main.cpp:419`). -/
def deniedMessage : Str := "Access denied to the requested path.\r\n".toList

/-- The full denial response built by `access_denied` (`main.cpp:168-180`). -/
def deniedResponse : Str :=
  "HTTP/1.0 403 Forbidden\r\nContent-Length: ".toList
    ++ (Nat.repr deniedMessage.length).toList
    ++ "\r\n\r\n".toList ++ deniedMessage

/-- The success response of `dump_file` (`main.cpp:276-286`): status line,
`Content-Length` of the `lseek`-computed size, blank line, then the file body
streamed by `safe_sendfile`. -/
def okResponse (n : Nat) (body : Str) : Str :=
  "HTTP/1.0 200 OK\r\nContent-Length: ".toList
    ++ (Nat.repr n).toList
    ++ "\r\n\r\n".toList ++ body

/-- `dump_file` (`main.cpp:265-292`) under a valid client descriptor: calling
`path.get()` may throw (`Except.error`, caught by the caller); otherwise the
result lists the byte sequences written to the client — empty when `open`
fails, when `lseek(...,SEEK_END)` is negative, or when `lseek(...,SEEK_SET)`
is negative, and the single full response otherwise. -/
def dump_file (fs : Fs) (rpath : Str) : Except Unit (List Str) :=
  if fs.isFile rpath && fs.readable rpath then
    Except.ok
      (if fs.openOk rpath then
        match fs.sizeOf rpath with
        | some fsize =>
          if fs.seekBackOk rpath then [okResponse fsize (fs.content rpath)]
          else []
        | none => []
      else [])
  else Except.error ()

/-- The fixed index document name, the `INDEX` macro (`main.cpp:51`). -/
def INDEX : Str := "/index.html".toList

/-- The GET-line scan of `process_request` (`main.cpp:393-407`): explode the
trimmed line on spaces; when the first word lowercases to `get`, the requested
relative path is `INDEX` if there is no second word or the trimmed second word
is `/`, and the raw second word otherwise. -/
def lineToken (line : Str) : Option Str :=
  match explode ' ' (trim line) with
  | [] => none
  | w :: ws =>
    if lowerStr w = "get".toList then
      some
        (match ws with
        | [] => INDEX
        | w1 :: _ => if trim w1 = ['/'] then INDEX else w1)
    else none

/-- Candidate absolute path formation (`main.cpp:411`):
`_htdocs + "/" + urldecode(_rpath)` — decoding happens here, before any jail
check sees the path. -/
def candidateOf (htdocs tok : Str) : Str := htdocs ++ ['/'] ++ urldecode tok

/-- The try block of `process_request` (`main.cpp:409-421`) for one candidate
path: construct the `SandboxPath` (throw ⇒ denial response), call `get()` for
the debug line (throw ⇒ denial response), then `dump_file` (an inner `get()`
throw is also caught as a denial).  The result lists the byte sequences
written to the client. -/
def serveCandidate (jail : Str) (fs : Fs) (cand : Str) : List Str :=
  match resolve jail fs.realPath cand with
  | none => [deniedResponse]
  | some rp =>
    match sandboxGet fs.isFile fs.readable rp with
    | none => [deniedResponse]
    | some p =>
      match dump_file fs p with
      | Except.ok ws => ws
      | Except.error _ => [deniedResponse]

/-- One iteration of the request-line loop (`main.cpp:393-423`): non-GET lines
write nothing; a GET line is served. -/
def handleLine (htdocs jail : Str) (fs : Fs) (line : Str) : List Str :=
  match lineToken line with
  | none => []
  | some tok => serveCandidate jail fs (candidateOf htdocs tok)

/-- The full `for (std::string line : request)` loop (`main.cpp:393-423`): the
byte sequences written to the client, in order.  There is no early exit, so
every line is processed. -/
def respond (htdocs jail : Str) (fs : Fs) : List Str → List Str
  | [] => []
  | line :: rest =>
    handleLine htdocs jail fs line ++ respond htdocs jail fs rest

/-- One iteration of the `read_request` accumulation loop (`main.cpp:442-487`)
as observed by the code: `stop` is "deadline elapsed or descriptor invalid",
`idle` is "not readable, or `read` returned a negative error", `chunk s` is
"`read` returned the bytes `s`" (more than zero bytes), and `eof` is "`read`
returned zero". -/
inductive ReadEvent where
  | stop
  | idle
  | chunk (s : Str)
  | eof

/-- Truncation of the read buffer at the first NUL byte: the C code copies the
buffer through a C-string constructor after null-terminating it
(`main.cpp:460-462`). -/
def truncAtNul : Str → Str
  | c :: rest => if c = Char.ofNat 0 then [] else c :: truncAtNul rest
  | [] => []

/-- CRLF canonicalization (`main.cpp:465-467`): replace the leftmost `\r\n`,
then continue searching just after the written `\n`. -/
def crlfToLf : Str → Str
  | '\r' :: '\n' :: rest => '\n' :: crlfToLf rest
  | c :: rest => c :: crlfToLf rest
  | [] => []

/-- Terminator test `request.find("\n\n") != npos` (`main.cpp:446`). -/
def hasTerminator : Str → Bool
  | '\n' :: '\n' :: _ => true
  | _ :: rest => hasTerminator rest
  | [] => false

/-- The `read_request` while loop (`main.cpp:446-485`) over a finite event
trace: `some acc` is the accumulated text the loop exits with (`[]` after
`request.clear()` on the abort paths), `none` means the trace ended before the
loop did (the model ran out of observations, not a behaviour of the code). -/
def read_request_core : List ReadEvent → Str → Option Str
  | [], acc => if hasTerminator acc then some acc else none
  | e :: rest, acc =>
    if hasTerminator acc then some acc
    else
      match e with
      | ReadEvent.stop => some []
      | ReadEvent.idle => read_request_core rest acc
      | ReadEvent.eof => some []
      | ReadEvent.chunk s =>
        read_request_core rest (acc ++ crlfToLf (truncAtNul s))

/-- `read_request` (`main.cpp:442-487`): run the loop, then trim and explode
the accumulated text on line feeds. -/
def read_request (evs : List ReadEvent) : Option (List Str) :=
  (read_request_core evs []).map (fun acc => explode '\n' (trim acc))

/-- The accumulation loop aborts: before the terminator is ever seen, the
trace reaches a deadline/invalid-descriptor iteration or a zero-length read. -/
inductive Aborts : List ReadEvent → Str → Prop
  | stop (rest : List ReadEvent) (acc : Str) :
      hasTerminator acc = false → Aborts (ReadEvent.stop :: rest) acc
  | eof (rest : List ReadEvent) (acc : Str) :
      hasTerminator acc = false → Aborts (ReadEvent.eof :: rest) acc
  | idle (rest : List ReadEvent) (acc : Str) :
      hasTerminator acc = false → Aborts rest acc →
      Aborts (ReadEvent.idle :: rest) acc
  | chunk (s : Str) (rest : List ReadEvent) (acc : Str) :
      hasTerminator acc = false →
      Aborts rest (acc ++ crlfToLf (truncAtNul s)) →
      Aborts (ReadEvent.chunk s :: rest) acc

/-- `process_request` (`main.cpp:375-431`): nothing at all happens on an
invalid descriptor; otherwise read the request, write the responses of every
line, and shut down and close the connection exactly once at the end.  The
boolean records whether the `shutdown`/`close` pair ran; `none` again only
means the read trace was too short for the model. -/
def process_request (htdocs jail : Str) (fs : Fs) (fdValid : Bool)
    (evs : List ReadEvent) : Option (List Str × Bool) :=
  if fdValid then
    (read_request evs).map
      (fun lines => (respond htdocs jail fs lines, true))
  else some ([], false)

/-- One `write(2)` observation for `safe_write`: `none` is a negative return,
`some k` a successful transfer of `k` bytes; POSIX guarantees at most the
requested `data_length - data_sent` bytes are reported, hence the clamp. -/
def safe_write_loop : List (Option Nat) → Nat → Nat → Option (Nat × Bool)
  | [], len, sent =>
    if sent < len then none else some (sent, decide (sent = len))
  | e :: rest, len, sent =>
    if sent < len then
      match e with
      | none => some (sent, decide (sent = len))
      | some k => safe_write_loop rest len (sent + min k (len - sent))
    else some (sent, decide (sent = len))

/-- `safe_write` (`main.cpp:556-571`): loop writes until everything is sent or
a write errors; the result is the total byte count sent and the returned
boolean `data_sent == data_length`.  `none` means the write trace ended while
the loop would have continued. -/
def safe_write (evs : List (Option Nat)) (data : Str) : Option (Nat × Bool) :=
  safe_write_loop evs data.length 0

/-- A filesystem oracle on which every canonicalization fails, so every GET
line is denied. -/
def fsDenyAll : Fs where
  realPath := fun _ => none
  isFile := fun _ => false
  readable := fun _ => false
  openOk := fun _ => false
  sizeOf := fun _ => none
  seekBackOk := fun _ => false
  content := fun _ => []

/-- An oracle whose canonicalization always lands on `/j/x`, which is not a
regular file. -/
def fsNotAFile : Fs where
  realPath := fun _ => some "/j/x".toList
  isFile := fun _ => false
  readable := fun _ => true
  openOk := fun _ => false
  sizeOf := fun _ => none
  seekBackOk := fun _ => false
  content := fun _ => []

/-- An oracle where the sandbox and `get` checks pass on `/j/x` but `open`
fails. -/
def fsOpenFails : Fs where
  realPath := fun _ => some "/j/x".toList
  isFile := fun _ => true
  readable := fun _ => true
  openOk := fun _ => false
  sizeOf := fun _ => none
  seekBackOk := fun _ => false
  content := fun _ => []

/-- `checkJail` accepts exactly the proper descendants of the jail. -/
theorem checkJail_eq_true_iff (jail p : Str) :
    checkJail jail p = true ↔ properDescendant jail p := by
  unfold checkJail properDescendant
  have hlen : (jail ++ ['/']).length = jail.length + 1 := by simp
  split_ifs with h
  · rw [decide_eq_true_iff]
    constructor
    · intro ht
      refine ⟨?_, by rw [hlen]; exact h⟩
      rw [List.prefix_iff_eq_take, hlen, ht]
    · rintro ⟨hpre, _⟩
      rw [List.prefix_iff_eq_take, hlen] at hpre
      exact hpre.symm
  · simp only [false_iff]
    rintro ⟨_, hl⟩
    rw [hlen] at hl
    exact h hl

/-- A path is never a proper descendant of itself. -/
theorem not_properDescendant_self (jail : Str) : ¬ properDescendant jail jail := by
  rintro ⟨_, hl⟩
  simp at hl

/-- Shared helper: the constructor throws whenever the canonical form is not
a proper descendant of the jail. -/
theorem resolve_eq_none_of_not_pd (jail : Str) (realPath : Str → Option Str)
    (path : Str)
    (hnd : ¬ properDescendant jail ((realPath path).getD [])) :
    resolve jail realPath path = none := by
  unfold resolve
  split_ifs with hj hcj
  · rfl
  · exact absurd ((checkJail_eq_true_iff jail _).mp hcj) hnd
  · rfl

/-- C1: the `SandboxPath` constructor denies, by throwing, whenever the
canonicalized form of the candidate is not a proper descendant of the jail; a
candidate canonicalizing to the jail itself is always denied; and a
constructed value holds exactly the canonical path, which is then a proper
descendant of the jail. -/
theorem resolve_denies_outside_jail (jail : Str) (realPath : Str → Option Str)
    (path : Str) :
    (¬ properDescendant jail ((realPath path).getD []) →
      resolve jail realPath path = none)
  ∧ (∀ rp, resolve jail realPath path = some rp →
      rp = (realPath path).getD [] ∧ properDescendant jail rp)
  ∧ ((realPath path).getD [] = jail → resolve jail realPath path = none) := by
  refine ⟨resolve_eq_none_of_not_pd jail realPath path, ?_, ?_⟩
  · intro rp hrp
    unfold resolve at hrp
    split_ifs at hrp with hj hcj
    cases hrp
    exact ⟨rfl, (checkJail_eq_true_iff jail _).mp hcj⟩
  · intro hcj
    unfold resolve
    split_ifs with hj hck
    · rfl
    · rw [hcj] at hck
      exact absurd ((checkJail_eq_true_iff jail jail).mp hck)
        (not_properDescendant_self jail)
    · rfl

/-- Witness for C1: the classic traversal candidate
`/srv/www/../../etc/passwd`, whose canonical form `/etc/passwd` is outside the
jail `/srv/www`, is denied. -/
theorem resolve_denies_outside_jail_w :
    resolve "/srv/www".toList (fun _ => some "/etc/passwd".toList)
      "/srv/www/../../etc/passwd".toList = none :=
  (resolve_denies_outside_jail "/srv/www".toList
      (fun _ => some "/etc/passwd".toList)
      "/srv/www/../../etc/passwd".toList).1 (by decide)

/-- Counterexample for C2: `urldecode` restarts its search from the beginning
of the partially decoded string, so the decoded byte of `%25` is re-examined
and `%2525` collapses all the way to `%`; single-pass decoding as the claim
states it ("each `%` followed by two hexadecimal digits is replaced by the
corresponding byte; malformed escapes are left undecoded") leaves `%25`. -/
theorem urldecode_not_single_pass :
    decodeOncePass "%2525".toList = "%25".toList
  ∧ urldecode "%2525".toList = "%".toList
  ∧ urldecode "%2525".toList ≠ decodeOncePass "%2525".toList :=
  ⟨rfl, rfl, by decide⟩

/-- C2 (amended): decoding happens strictly before the candidate path is
formed by concatenation onto the sandbox root — the candidate is
`htdocs ++ "/" ++ urldecode tok` by construction — but the decoder is the
restart-from-the-beginning loop, which decodes `%2e%2e%2fsecret` to
`../secret` and may decode bytes that earlier replacements produced; the
resulting candidate is denied whenever its canonical form is not a proper
descendant of the root. -/
theorem decode_before_jail_check (htdocs jail : Str) (fs : Fs) :
    urldecode "%2e%2e%2fsecret".toList = "../secret".toList
  ∧ (∀ tok, candidateOf htdocs tok = htdocs ++ ['/'] ++ urldecode tok)
  ∧ (∀ cand, ¬ properDescendant jail ((fs.realPath cand).getD []) →
      serveCandidate jail fs cand = [deniedResponse]) := by
  refine ⟨rfl, fun tok => rfl, fun cand hnd => ?_⟩
  unfold serveCandidate
  rw [resolve_eq_none_of_not_pd jail fs.realPath cand hnd]

/-- Unfolding `serveCandidate` when the constructor throws. -/
theorem serveCandidate_of_resolve_none (jail : Str) (fs : Fs) (cand : Str)
    (h : resolve jail fs.realPath cand = none) :
    serveCandidate jail fs cand = [deniedResponse] := by
  unfold serveCandidate
  rw [h]

/-- Unfolding `serveCandidate` when the constructor succeeds. -/
theorem serveCandidate_of_resolve_some (jail : Str) (fs : Fs) (cand rp : Str)
    (h : resolve jail fs.realPath cand = some rp) :
    serveCandidate jail fs cand
      = (match sandboxGet fs.isFile fs.readable rp with
        | none => [deniedResponse]
        | some p =>
          match dump_file fs p with
          | Except.ok ws => ws
          | Except.error _ => [deniedResponse]) := by
  unfold serveCandidate
  rw [h]

/-- Unfolding `handleLine` on a non-GET line. -/
theorem handleLine_of_token_none (htdocs jail : Str) (fs : Fs) (line : Str)
    (h : lineToken line = none) : handleLine htdocs jail fs line = [] := by
  unfold handleLine
  rw [h]

/-- Unfolding `handleLine` on a GET line with token `tok`. -/
theorem handleLine_of_token_some (htdocs jail : Str) (fs : Fs) (line tok : Str)
    (h : lineToken line = some tok) :
    handleLine htdocs jail fs line
      = serveCandidate jail fs (candidateOf htdocs tok) := by
  unfold handleLine
  rw [h]

/-- `dump_file` either throws, writes nothing, or writes the single success
response whose advertised length is the `lseek` size. -/
theorem dump_file_shape (fs : Fs) (p : Str) :
    dump_file fs p = Except.error ()
  ∨ dump_file fs p = Except.ok []
  ∨ ∃ n, fs.sizeOf p = some n
      ∧ dump_file fs p = Except.ok [okResponse n (fs.content p)] := by
  by_cases h1 : (fs.isFile p && fs.readable p) = true
  · by_cases h2 : fs.openOk p = true
    · cases hs : fs.sizeOf p with
      | none =>
        right; left
        simp [dump_file, h1, h2, hs]
      | some n =>
        by_cases hb : fs.seekBackOk p = true
        · right; right
          exact ⟨n, rfl, by simp [dump_file, h1, h2, hs, hb]⟩
        · right; left
          simp [dump_file, h1, h2, hs, hb]
    · right; left
      simp [dump_file, h1, h2]
  · left
    simp [dump_file, h1]

/-- Unfolding `serveCandidate` when `get` throws. -/
theorem serveCandidate_of_get_none (jail : Str) (fs : Fs) (cand rp : Str)
    (hres : resolve jail fs.realPath cand = some rp)
    (hget : sandboxGet fs.isFile fs.readable rp = none) :
    serveCandidate jail fs cand = [deniedResponse] := by
  rw [serveCandidate_of_resolve_some jail fs cand rp hres, hget]

/-- Unfolding `serveCandidate` when `get` succeeds. -/
theorem serveCandidate_of_get_some (jail : Str) (fs : Fs) (cand rp p : Str)
    (hres : resolve jail fs.realPath cand = some rp)
    (hget : sandboxGet fs.isFile fs.readable rp = some p) :
    serveCandidate jail fs cand
      = (match dump_file fs p with
        | Except.ok ws => ws
        | Except.error _ => [deniedResponse]) := by
  rw [serveCandidate_of_resolve_some jail fs cand rp hres, hget]

/-- Every element of a `serveCandidate` write list is the fixed denial
response or a success response for a file whose `lseek` size is its
`Content-Length`. -/
theorem serveCandidate_mem (jail : Str) (fs : Fs) (cand w : Str)
    (hw : w ∈ serveCandidate jail fs cand) :
    w = deniedResponse
  ∨ ∃ p n, fs.sizeOf p = some n ∧ w = okResponse n (fs.content p) := by
  rcases hres : resolve jail fs.realPath cand with _ | rp
  · rw [serveCandidate_of_resolve_none jail fs cand hres] at hw
    left
    simpa using hw
  · rcases hget : sandboxGet fs.isFile fs.readable rp with _ | p
    · rw [serveCandidate_of_get_none jail fs cand rp hres hget] at hw
      left
      simpa using hw
    · rw [serveCandidate_of_get_some jail fs cand rp p hres hget] at hw
      rcases dump_file_shape fs p with h | h | ⟨n, hs, h⟩ <;> rw [h] at hw
      · left
        simpa using hw
      · simp at hw
      · right
        exact ⟨p, n, hs, by simpa using hw⟩

/-- A single candidate never produces more than one write. -/
theorem serveCandidate_length_le_one (jail : Str) (fs : Fs) (cand : Str) :
    (serveCandidate jail fs cand).length ≤ 1 := by
  rcases hres : resolve jail fs.realPath cand with _ | rp
  · rw [serveCandidate_of_resolve_none jail fs cand hres]
    simp
  · rcases hget : sandboxGet fs.isFile fs.readable rp with _ | p
    · rw [serveCandidate_of_get_none jail fs cand rp hres hget]
      simp
    · rw [serveCandidate_of_get_some jail fs cand rp p hres hget]
      rcases dump_file_shape fs p with h | h | ⟨n, _, h⟩ <;> rw [h] <;> simp

/-- Counterexample for C3: the GET-scan loop of `process_request` has no
break, so a header set with two GET lines produces two responses on one
connection, not one. -/
theorem two_get_lines_two_responses :
    respond "/srv/www".toList "/srv/www".toList fsDenyAll
      ["GET /a".toList, "GET /b".toList]
      = [deniedResponse, deniedResponse] := by
  rfl

/-- C3 (amended): every line whose first whitespace-delimited token
case-insensitively equals GET is honored, in request order — one connection
receives one response per GET line (at most one write per line, none for
non-GET lines), not only a response for the first GET line. -/
theorem every_get_line_honored (htdocs jail : Str) (fs : Fs) :
    (∀ line rest, respond htdocs jail fs (line :: rest)
      = handleLine htdocs jail fs line ++ respond htdocs jail fs rest)
  ∧ (∀ line, lineToken line = none → handleLine htdocs jail fs line = [])
  ∧ (∀ line, (handleLine htdocs jail fs line).length ≤ 1) := by
  refine ⟨fun line rest => rfl,
    fun line h => handleLine_of_token_none htdocs jail fs line h,
    fun line => ?_⟩
  rcases htok : lineToken line with _ | tok
  · rw [handleLine_of_token_none htdocs jail fs line htok]
    simp
  · rw [handleLine_of_token_some htdocs jail fs line tok htok]
    exact serveCandidate_length_le_one jail fs (candidateOf htdocs tok)

/-- Witness for C3 (amended), at a concrete line and oracle. -/
theorem every_get_line_honored_w :
    (handleLine "/srv/www".toList "/srv/www".toList fsDenyAll
      "GET /x".toList).length ≤ 1 :=
  (every_get_line_honored "/srv/www".toList "/srv/www".toList
    fsDenyAll).2.2 "GET /x".toList

/-- C4: when `lseek` reports the true byte count of each file, every byte
sequence the server writes to a client is one of exactly two shapes — the
success response whose body length equals its `Content-Length`, or the fixed
denial response. -/
theorem responses_two_shapes (htdocs jail : Str) (fs : Fs) (lines : List Str)
    (hsize : ∀ p n, fs.sizeOf p = some n → (fs.content p).length = n) :
    ∀ w ∈ respond htdocs jail fs lines,
      (∃ n body, body.length = n ∧ w = okResponse n body)
      ∨ w = deniedResponse := by
  induction lines with
  | nil =>
    intro w hw
    cases hw
  | cons line rest ih =>
    intro w hw
    rw [respond] at hw
    rcases List.mem_append.mp hw with h | h
    · rcases htok : lineToken line with _ | tok
      · rw [handleLine_of_token_none htdocs jail fs line htok] at h
        cases h
      · rw [handleLine_of_token_some htdocs jail fs line tok htok] at h
        rcases serveCandidate_mem jail fs (candidateOf htdocs tok) w h with
          hd | ⟨p, n, hs, hok⟩
        · right
          exact hd
        · left
          exact ⟨n, fs.content p, hsize p n hs, hok⟩
    · exact ih w h

/-- Witness for C4 at a concrete denied request. -/
theorem responses_two_shapes_w :
    (∃ n body, body.length = n ∧ deniedResponse = okResponse n body)
    ∨ deniedResponse = deniedResponse :=
  responses_two_shapes "/srv/www".toList "/srv/www".toList fsDenyAll
    ["GET /a".toList] (fun p n h => Option.noConfusion h) deniedResponse
    (by decide)

/-- C5: after a successful `resolve`, `get` succeeds exactly when the target
is a readable regular file (the regular-file predicate is false for a path
that does not exist), and a `get` failure is answered with the fixed 403
denial response instead of a crash. -/
theorem materialize_iff_denial (jail : Str) (fs : Fs) (cand rp : Str)
    (hres : resolve jail fs.realPath cand = some rp) :
    (sandboxGet fs.isFile fs.readable rp = some rp
      ↔ (fs.isFile rp = true ∧ fs.readable rp = true))
  ∧ (sandboxGet fs.isFile fs.readable rp = none →
      serveCandidate jail fs cand = [deniedResponse]) := by
  constructor
  · constructor
    · intro h
      unfold sandboxGet at h
      split_ifs at h with hc
      exact Bool.and_eq_true_iff.mp hc
    · rintro ⟨h1, h2⟩
      unfold sandboxGet
      rw [h1, h2]
      rfl
  · intro hget
    rw [serveCandidate_of_resolve_some jail fs cand rp hres, hget]

/-- Witness for C5: a resolved path that is not a regular file gets the fixed
denial response. -/
theorem materialize_iff_denial_w :
    serveCandidate "/j".toList fsNotAFile "/j/x".toList = [deniedResponse] :=
  (materialize_iff_denial "/j".toList fsNotAFile "/j/x".toList
    "/j/x".toList rfl).2 rfl

/-- An aborted accumulation exits the loop with the cleared (empty) text. -/
theorem aborts_core (evs : List ReadEvent) (acc : Str) (h : Aborts evs acc) :
    read_request_core evs acc = some [] := by
  induction h with
  | stop rest acc hterm => simp [read_request_core, hterm]
  | eof rest acc hterm => simp [read_request_core, hterm]
  | idle rest acc hterm hab ih =>
    rw [read_request_core, if_neg (by simp [hterm])]
    exact ih
  | chunk s rest acc hterm hab ih =>
    rw [read_request_core, if_neg (by simp [hterm])]
    exact ih

/-- C6: when request accumulation aborts — deadline, invalid descriptor, or a
zero-length read before the `\n\n` terminator — `read_request` returns the
empty result, the handler writes no response bytes, and the connection is
still shut down and closed exactly once. -/
theorem aborted_read_silent_close (htdocs jail : Str) (fs : Fs)
    (evs : List ReadEvent) (h : Aborts evs []) :
    read_request evs = some []
  ∧ process_request htdocs jail fs true evs = some ([], true) := by
  have hc := aborts_core evs [] h
  have hr : read_request evs = some [] := by
    unfold read_request
    rw [hc]
    rfl
  exact ⟨hr, by simp [process_request, hr, respond]⟩

/-- Witness for C6: a peer that half-closes immediately. -/
theorem aborted_read_silent_close_w :
    read_request [ReadEvent.eof] = some []
  ∧ process_request [] [] fsDenyAll true [ReadEvent.eof] = some ([], true) :=
  aborted_read_silent_close [] [] fsDenyAll [ReadEvent.eof]
    (Aborts.eof [] [] rfl)

/-- The write loop exits with success exactly when everything was sent;
falling short only happens on a write error; with an error-free trace a
terminating run sends everything. -/
theorem safe_write_loop_spec (evs : List (Option Nat)) (len : Nat) :
    ∀ sent r ok, sent ≤ len → safe_write_loop evs len sent = some (r, ok) →
      ((ok = true ↔ r = len)
        ∧ (r < len → none ∈ evs)
        ∧ (none ∉ evs → r = len)) := by
  induction evs with
  | nil =>
    intro sent r ok hsent h
    by_cases hlt : sent < len
    · rw [safe_write_loop, if_pos hlt] at h
      cases h
    · rw [safe_write_loop, if_neg hlt] at h
      have heq : sent = len := le_antisymm hsent (le_of_not_lt hlt)
      simp only [Option.some.injEq, Prod.mk.injEq] at h
      obtain ⟨rfl, rfl⟩ := h
      subst heq
      refine ⟨by simp, fun hlt2 => absurd hlt2 (lt_irrefl _), fun _ => rfl⟩
  | cons e rest ih =>
    intro sent r ok hsent h
    cases e with
    | none =>
      by_cases hlt : sent < len
      · rw [safe_write_loop, if_pos hlt] at h
        simp only [Option.some.injEq, Prod.mk.injEq] at h
        obtain ⟨rfl, rfl⟩ := h
        have hne : sent ≠ len := Nat.ne_of_lt hlt
        refine ⟨by simp [hne], fun _ => List.mem_cons_self none rest,
          fun habs => absurd (List.mem_cons_self none rest) habs⟩
      · rw [safe_write_loop, if_neg hlt] at h
        have heq : sent = len := le_antisymm hsent (le_of_not_lt hlt)
        simp only [Option.some.injEq, Prod.mk.injEq] at h
        obtain ⟨rfl, rfl⟩ := h
        subst heq
        refine ⟨by simp, fun hlt2 => absurd hlt2 (lt_irrefl _), fun _ => rfl⟩
    | some k =>
      by_cases hlt : sent < len
      · rw [safe_write_loop, if_pos hlt] at h
        have hsent2 : sent + min k (len - sent) ≤ len := by omega
        obtain ⟨h1, h2, h3⟩ := ih (sent + min k (len - sent)) r ok hsent2 h
        refine ⟨h1, fun hr => List.mem_cons_of_mem _ (h2 hr), fun hni => ?_⟩
        exact h3 (fun hmem => hni (List.mem_cons_of_mem _ hmem))
      · rw [safe_write_loop, if_neg hlt] at h
        have heq : sent = len := le_antisymm hsent (le_of_not_lt hlt)
        simp only [Option.some.injEq, Prod.mk.injEq] at h
        obtain ⟨rfl, rfl⟩ := h
        subst heq
        refine ⟨by simp, fun hlt2 => absurd hlt2 (lt_irrefl _), fun _ => rfl⟩

/-- C7: `safe_write` loops accumulating the count of sent bytes and returns
`true` exactly when the total sent equals the requested length of the data;
any shortfall is accompanied by a write error in the trace. -/
theorem safe_write_success_iff (evs : List (Option Nat)) (data : Str)
    (r : Nat) (ok : Bool) (h : safe_write evs data = some (r, ok)) :
    (ok = true ↔ r = data.length)
  ∧ (r < data.length → none ∈ evs)
  ∧ (none ∉ evs → r = data.length) :=
  safe_write_loop_spec evs data.length 0 r ok (Nat.zero_le _) h

/-- Witness for C7: a 3-byte write followed by an error, against 5 requested
bytes, returns failure with 3 bytes sent. -/
theorem safe_write_success_iff_w :
    ((false = true) ↔ (3 = "hello".toList.length))
  ∧ (3 < "hello".toList.length → none ∈ [some 3, none])
  ∧ (none ∉ [some 3, none] → 3 = "hello".toList.length) :=
  safe_write_success_iff [some 3, none] "hello".toList 3 false rfl

/-- C8: a GET with no path token, a GET for `/`, and a GET for the literal
index document name `/index.html` all produce the token `INDEX`, hence the
identical candidate absolute path and identical responses against any fixed
filesystem oracle. -/
theorem root_and_index_identical (htdocs jail : Str) (fs : Fs) :
    lineToken "GET".toList = some INDEX
  ∧ lineToken "GET /".toList = some INDEX
  ∧ lineToken "GET /index.html".toList = some INDEX
  ∧ handleLine htdocs jail fs "GET /".toList
      = handleLine htdocs jail fs "GET /index.html".toList
  ∧ handleLine htdocs jail fs "GET".toList
      = handleLine htdocs jail fs "GET /index.html".toList := by
  have h1 : lineToken "GET".toList = some INDEX := by decide
  have h2 : lineToken "GET /".toList = some INDEX := by decide
  have h3 : lineToken "GET /index.html".toList = some INDEX := by decide
  refine ⟨h1, h2, h3, ?_, ?_⟩
  · rw [handleLine_of_token_some htdocs jail fs _ _ h2,
      handleLine_of_token_some htdocs jail fs _ _ h3]
  · rw [handleLine_of_token_some htdocs jail fs _ _ h1,
      handleLine_of_token_some htdocs jail fs _ _ h3]

/-- Witness for C8 at a concrete oracle. -/
theorem root_and_index_identical_w :
    handleLine "/srv/www".toList "/srv/www".toList fsDenyAll "GET /".toList
      = handleLine "/srv/www".toList "/srv/www".toList fsDenyAll
          "GET /index.html".toList :=
  (root_and_index_identical "/srv/www".toList "/srv/www".toList
    fsDenyAll).2.2.2.1

/-- `setJail` on an already-set jail leaves it unchanged and reports true. -/
theorem setJail_of_ne (realPath : Str → Option Str) (jail q : Str)
    (hj : jail ≠ []) : setJail realPath jail q = (jail, true) := by
  have hlen : ¬ jail.length = 0 := by simpa using hj
  have hpos : 0 < jail.length := Nat.pos_of_ne_zero hlen
  simp [setJail, hlen, hpos]

/-- C9: `setJail` assigns the static jail only while it is empty — the first
call whose argument canonicalizes to a non-empty path fixes the jail, every
later call leaves the stored jail unchanged and merely reports that a jail is
set — and constructing any `SandboxPath` while the jail is empty always
throws. -/
theorem setJail_first_call_fixes (realPath : Str → Option Str)
    (jail p q c : Str) :
    (jail ≠ [] → setJail realPath jail q = (jail, true))
  ∧ (realPath p = some c → c ≠ [] →
      setJail realPath [] p = (c, true) ∧ setJail realPath c q = (c, true))
  ∧ resolve [] realPath p = none := by
  refine ⟨setJail_of_ne realPath jail q, fun hrp hc => ?_, rfl⟩
  have hlen : ¬ c.length = 0 := by simpa using hc
  have hpos : 0 < c.length := Nat.pos_of_ne_zero hlen
  exact ⟨by simp [setJail, hrp, hpos], setJail_of_ne realPath c q hc⟩

/-- Witness for C9: the first call with canonical path `/srv` sets the jail,
and a second call with a different argument leaves it unchanged. -/
theorem setJail_first_call_fixes_w :
    setJail (fun _ => some "/srv".toList) [] "/srv/./.".toList
      = ("/srv".toList, true)
  ∧ setJail (fun _ => some "/srv".toList) "/srv".toList "/other".toList
      = ("/srv".toList, true) :=
  (setJail_first_call_fixes (fun _ => some "/srv".toList)
    [] "/srv/./.".toList "/other".toList "/srv".toList).2.1 rfl (by decide)

/-- C10: when the sandbox checks pass but `open` fails or either `lseek`
fails, `dump_file` writes nothing at all — neither a 200 nor a 403 response —
and the handler still shuts down and closes the connection. -/
theorem open_or_seek_failure_silent (htdocs jail : Str) (fs : Fs)
    (cand p : Str) (evs : List ReadEvent) (lines : List Str)
    (hres : resolve jail fs.realPath cand = some p)
    (hget : fs.isFile p = true ∧ fs.readable p = true)
    (hfail : fs.openOk p = false ∨ fs.sizeOf p = none
      ∨ (∃ n, fs.sizeOf p = some n ∧ fs.seekBackOk p = false))
    (hread : read_request evs = some lines) :
    dump_file fs p = Except.ok []
  ∧ serveCandidate jail fs cand = []
  ∧ process_request htdocs jail fs true evs
      = some (respond htdocs jail fs lines, true) := by
  have hd : dump_file fs p = Except.ok [] := by
    rcases hfail with h | h | ⟨n, hs, hb⟩
    · simp [dump_file, hget.1, hget.2, h]
    · simp [dump_file, hget.1, hget.2, h]
    · simp [dump_file, hget.1, hget.2, hs, hb]
  have hg : sandboxGet fs.isFile fs.readable p = some p := by
    simp [sandboxGet, hget.1, hget.2]
  refine ⟨hd, ?_, by simp [process_request, hread]⟩
  rw [serveCandidate_of_get_some jail fs cand p p hres hg, hd]

/-- Witness for C10: an `open` failure after all checks pass writes nothing
and the connection is still closed. -/
theorem open_or_seek_failure_silent_w :
    dump_file fsOpenFails "/j/x".toList = Except.ok []
  ∧ serveCandidate "/j".toList fsOpenFails "/j/x".toList = []
  ∧ process_request "/j".toList "/j".toList fsOpenFails true [ReadEvent.eof]
      = some (respond "/j".toList "/j".toList fsOpenFails [], true) :=
  open_or_seek_failure_silent "/j".toList "/j".toList fsOpenFails
    "/j/x".toList "/j/x".toList [ReadEvent.eof] [] rfl ⟨rfl, rfl⟩
    (Or.inl rfl) rfl
